import Mathlib

/-!
Shallow embedding of `homeassistant/components/group/entity.py` (class `Group`
and the preview path of class `GroupEntity`), together with theorems checking
the natural-language specification of the group aggregation engine.

Python dictionaries are modelled as association lists (`List (String × _)`)
with insertion-order-preserving update; Python sets of strings are modelled as
duplicate-free lists with order-preserving insertion (only cardinality and the
unique element of a singleton set are ever observed by the source, so the
order is never visible).  The live state store `hass.states` is modelled as an
association list from entity id to `State`.
-/

set_option autoImplicit false

namespace HAGroup

/-- `STATE_ON` from `homeassistant.const`. -/
def STATE_ON : String := "on"

/-- `STATE_OFF` from `homeassistant.const`. -/
def STATE_OFF : String := "off"

/-- Character-level lower casing, mirroring Python `str.lower` on ASCII ids. -/
def lowerStr (s : String) : String := String.mk (s.data.map Char.toLower)

/-- The characters of an entity id before the first dot. -/
def takeUntilDot : List Char → List Char
  | [] => []
  | c :: cs => if c = '.' then [] else c :: takeUntilDot cs

/-- `split_entity_id(eid)[0]`: the domain part of an entity id. -/
def entityDomain (eid : String) : String := String.mk (takeUntilDot eid.data)

/-- Lookup in an association list keyed by strings (Python `dict.get` /
`dict[k]` for a present key). -/
def dlookup {α : Type} : List (String × α) → String → Option α
  | [], _ => none
  | p :: rest, k => if p.1 = k then some p.2 else dlookup rest k

/-- Python `k in dict`: membership among the keys. -/
def dmem {α : Type} (l : List (String × α)) (k : String) : Bool :=
  (dlookup l k).isSome

/-- Python `dict[k] = v`: replace the value in place when the key is present,
append at the end otherwise. -/
def dinsert {α : Type} (l : List (String × α)) (k : String) (v : α) : List (String × α) :=
  if dmem l k then l.map (fun p => if p.1 = k then (k, v) else p) else l ++ [(k, v)]

/-- Python `x in list-of-strings` / `x in set-of-strings`. -/
def scontains : List String → String → Bool
  | [], _ => false
  | y :: rest, x => if y = x then true else scontains rest x

/-- Python `set.add`. -/
def sinsert (s : List String) (x : String) : List String :=
  if scontains s x then s else s ++ [x]

/-- Python `set.update`. -/
def supdate (s : List String) (xs : List String) : List String :=
  xs.foldl sinsert s

/-- `self.mode`, i.e. the built-in `any` (when `isAll = false`) or `all`
(when `isAll = true`) applied to a collection of booleans. -/
def applyMode (isAll : Bool) (bs : List Bool) : Bool :=
  if isAll then bs.all id else bs.any id

/-- Python truthiness of an `str | None` value: `None` and `""` are falsy. -/
def optStrTruthy : Option String → Bool
  | none => false
  | some s => !(s = "")

/-- A member state as read from the live store (`homeassistant.core.State`):
`entity_id`, the state label `state`, and the truthiness of the
`ATTR_ASSUMED_STATE` attribute. -/
structure State where
  entity_id : String
  state : String
  assumed_state_attr : Bool
deriving Repr, DecidableEq

/-- `State.domain`: the domain part of the state's entity id. -/
def State.domain (s : State) : String := entityDomain s.entity_id

/-- Modelled from the spec: the mapping registry (`GroupIntegrationRegistry`
from `.registry`, which is not under `src/`).  Per the spec it supplies, per
domain, the set of on labels (`onStatesByDomain`), the canonical off label
(`offStateByDomain`), the global on/off label table (`onOffMapping`, whose
keys are the generic on labels), the off-label→on-label table
(`offOnMapping`), and the excluded domains.  `entity.py` only ever tests key
membership of `on_off_mapping` and looks values up in the other tables, so
`on_off_mapping` is kept as (on-label, off-label) pairs with membership taken
over the keys. -/
structure GroupIntegrationRegistry where
  on_off_mapping : List (String × String)
  off_on_mapping : List (String × String)
  on_states_by_domain : List (String × List String)
  off_state_by_domain : List (String × String)
  exclude_domains : List String
deriving Repr

/-- Modelled from the spec: "`onOffMapping`: label → boolean, global fallback
for domains not listed above" — the boolean the mapping associates with a
label, false when the label is not in the mapping.  Under the source registry
the labels carrying `true` are exactly the keys of `on_off_mapping`. -/
def onOffMappingBool (r : GroupIntegrationRegistry) (label : String) : Bool :=
  dmem r.on_off_mapping label

/-- The mutable state of a `Group` entity: membership
(`tracking`/`trackable`/`single_active_domain` from `_set_tracked`), the
per-member caches (`_on_off`, `_assumed`, `_on_states`), the published fields
(`_state`, `_assumed_state`), the combinator (`mode`, `true` meaning `all`),
and whether `_async_unsub_state_changed` is currently set (`subscribed`). -/
structure Group where
  tracking : List String
  trackable : List String
  single_active_domain : Option String
  on_off : List (String × Bool)
  assumed : List (String × Bool)
  on_states : List String
  state : Option String
  assumed_state : Bool
  mode : Bool
  subscribed : Bool
deriving Repr

/-- The loop body of `Group._set_tracked`: walks the requested ids carrying
the accumulated `tracking`, `trackable`, the running candidate domain
(`single_active_domain`) and the `multiple_domains` flag. -/
def setTrackedLoop (excl : List String) :
    List String → List String → List String → Option String → Bool →
    List String × List String × Option String
  | [], tracking, trackable, sad, _ => (tracking, trackable, sad)
  | ent_id :: rest, tracking, trackable, sad, multi =>
    let lowid := lowerStr ent_id
    let domain := entityDomain lowid
    let tracking := tracking ++ [lowid]
    if scontains excl domain then
      setTrackedLoop excl rest tracking trackable sad multi
    else
      let trackable := trackable ++ [lowid]
      let sad := if !multi && sad.isNone then some domain else sad
      if sad = some domain then
        setTrackedLoop excl rest tracking trackable sad multi
      else
        setTrackedLoop excl rest tracking trackable none true

/-- `Group._set_tracked(entity_ids)`. -/
def set_tracked (r : GroupIntegrationRegistry) (entity_ids : Option (List String))
    (g : Group) : Group :=
  match entity_ids with
  | none => { g with tracking := [], trackable := [], single_active_domain := none }
  | some ids =>
    if ids.isEmpty then
      { g with tracking := [], trackable := [], single_active_domain := none }
    else
      let res := setTrackedLoop r.exclude_domains ids [] [] none false
      { g with
          tracking := res.1
          trackable := res.2.1
          single_active_domain := res.2.2 }

/-- `Group._see_state(new_state)`. -/
def see_state (r : GroupIntegrationRegistry) (new_state : State) (g : Group) : Group :=
  let entity_id := new_state.entity_id
  let st := new_state.state
  let assumed := dinsert g.assumed entity_id new_state.assumed_state_attr
  match dlookup r.on_states_by_domain new_state.domain with
  | none =>
    { g with
        assumed := assumed
        on_states :=
          if dmem r.on_off_mapping st then sinsert g.on_states st
          else
            match dlookup r.off_on_mapping st with
            | some onl => sinsert g.on_states onl
            | none => g.on_states
        on_off := dinsert g.on_off entity_id (dmem r.on_off_mapping st) }
  | some entity_on_state =>
    { g with
        assumed := assumed
        on_states := supdate g.on_states entity_on_state
        on_off := dinsert g.on_off entity_id (scontains entity_on_state st) }

/-- `Group._reset_tracked_state()`: clear the three caches, then observe each
trackable member with a known live state. -/
def reset_tracked_state (r : GroupIntegrationRegistry) (states : List (String × State))
    (g : Group) : Group :=
  let g0 := { g with on_off := [], assumed := [], on_states := [] }
  g.trackable.foldl
    (fun acc entity_id =>
      match dlookup states entity_id with
      | some st => see_state r st acc
      | none => acc)
    g0

/-- The scanning loop of `Group._detect_specific_on_off_state`, including the
early `break` once more than one distinct active on label has been found. -/
def detectLoop (r : GroupIntegrationRegistry) (states : List (String × State))
    (group_is_on : Bool) :
    List String → List String → List String → List String
  | [], activeOn, activeOff => if group_is_on then activeOn else activeOff
  | entity_id :: rest, activeOn, activeOff =>
    match dlookup states entity_id with
    | none => detectLoop r states group_is_on rest activeOn activeOff
    | some st =>
      let current_state := st.state
      let domain_on_states := (dlookup r.on_states_by_domain st.domain).getD []
      if group_is_on && !domain_on_states.isEmpty
          && scontains domain_on_states current_state then
        let activeOn := sinsert activeOn current_state
        if activeOn.length > 1 then
          if group_is_on then activeOn else activeOff
        else detectLoop r states group_is_on rest activeOn activeOff
      else if dmem r.off_on_mapping current_state then
        detectLoop r states group_is_on rest activeOn (sinsert activeOff current_state)
      else detectLoop r states group_is_on rest activeOn activeOff

/-- `Group._detect_specific_on_off_state(group_is_on)`. -/
def detect_specific_on_off_state (r : GroupIntegrationRegistry)
    (states : List (String × State)) (g : Group) (group_is_on : Bool) : List String :=
  detectLoop r states group_is_on g.trackable [] []

/-- Observe the changed state when one was supplied (step `if tr_state:
self._see_state(tr_state)` of `_async_update_group_state`). -/
def seeOpt (r : GroupIntegrationRegistry) (tr_state : Option State) (g : Group) : Group :=
  match tr_state with
  | some st => see_state r st g
  | none => g

/-- The `_assumed_state` update of `_async_update_group_state` (lines
458-466): full recompute, or already-assumed group with a not-assumed changed
member, recomputes `mode` over the cached flags; an assumed changed member
forces `true`; otherwise the flag is untouched. -/
def computeAssumed (tr_state : Option State) (g : Group) : Group :=
  match tr_state with
  | none => { g with assumed_state := applyMode g.mode (g.assumed.map Prod.snd) }
  | some st =>
    if g.assumed_state && !st.assumed_state_attr then
      { g with assumed_state := applyMode g.mode (g.assumed.map Prod.snd) }
    else if st.assumed_state_attr then { g with assumed_state := true }
    else g

/-- The `on_state` if/elif chain of `_async_update_group_state` (lines
479-490).  The local variable is modelled as an `Option String`; `none` marks
the case in which no branch assigned it (in Python a read would then raise
`UnboundLocalError`). -/
def computeOnLabel (r : GroupIntegrationRegistry) (states : List (String × State))
    (g : Group) (group_is_on : Bool) : Option String :=
  if g.on_states.length = 1 then g.on_states.head?
  else if optStrTruthy g.single_active_domain && !(g.on_states.length = 0) then
    let active_on_states := detect_specific_on_off_state r states g true
    some (match active_on_states with
          | [x] => x
          | _ => STATE_ON)
  else if group_is_on then some STATE_ON
  else none

/-- The off branch of `_async_update_group_state` (lines 495-509): the single
active domain's canonical off label when the domain is truthy and registered,
otherwise the unique detected live off label, falling back to `STATE_OFF`. -/
def computeOffLabel (r : GroupIntegrationRegistry) (states : List (String × State))
    (g : Group) : String :=
  let viaDomain : Option String :=
    match g.single_active_domain with
    | some d => if d = "" then none else dlookup r.off_state_by_domain d
    | none => none
  match viaDomain with
  | some offl => offl
  | none =>
    let active_off_states := detect_specific_on_off_state r states g false
    match active_off_states with
    | [x] => x
    | _ => STATE_OFF

/-- Steps 468-509 of `_async_update_group_state`: unknown when no on label is
in play, otherwise the on label or the off label depending on the
combinator over the cached per-member booleans. -/
def computeState (r : GroupIntegrationRegistry) (states : List (String × State))
    (g : Group) : Group :=
  if g.on_states.length = 0 then { g with state := none }
  else
    let group_is_on := applyMode g.mode (g.on_off.map Prod.snd)
    if group_is_on then { g with state := computeOnLabel r states g group_is_on }
    else { g with state := some (computeOffLabel r states g) }

/-- `Group._async_update_group_state(tr_state)`. -/
def update_group_state (r : GroupIntegrationRegistry) (states : List (String × State))
    (tr_state : Option State) (g : Group) : Group :=
  let g1 := seeOpt r tr_state g
  if g1.on_off.isEmpty then g1
  else computeState r states (computeAssumed tr_state g1)

/-- A delivered state-change event: the member's id and its new state,
`none` when the state was removed from the live store. -/
structure StateEvent where
  entity_id : String
  new_state : Option State
deriving Repr, DecidableEq

/-- `Group._async_state_changed_listener(event)`: return unchanged when the
subscription handle is gone; on a removed state run a full cache reset; then
recompute with the new state. -/
def state_changed_listener (r : GroupIntegrationRegistry)
    (states : List (String × State)) (ev : StateEvent) (g : Group) : Group :=
  if !g.subscribed then g
  else
    let g2 :=
      match ev.new_state with
      | none => reset_tracked_state r states g
      | some _ => g
    update_group_state r states ev.new_state g2

/-- `Group._async_stop()`: release the subscription handle when present. -/
def async_stop (g : Group) : Group :=
  if g.subscribed then { g with subscribed := false } else g

/-- The off-label rule as the spec words it (claim C2): with the group off,
use the single active domain's canonical off label when registered, otherwise
the unique currently-live off label found by detection with `wantOn = false`,
falling back to the generic `STATE_OFF`. -/
def specOffRule (r : GroupIntegrationRegistry) (states : List (String × State))
    (g : Group) : String :=
  let det := detect_specific_on_off_state r states g false
  let detLabel :=
    match det with
    | [x] => x
    | _ => STATE_OFF
  match g.single_active_domain with
  | some d =>
    match dlookup r.off_state_by_domain d with
    | some offl => offl
    | none => detLabel
  | none => detLabel

/-! ### The preview path of `GroupEntity` (`async_start_preview`)

The preview path touches the host only through a small set of effects; the
embedding records those effects explicitly so that the frame property "the
committed state and the committed subscriptions are untouched" is a statement
about which effects the path emits, checkable against the calls the source
makes on lines 44-72. -/

/-- The kinds of subscriptions a group entity can hold against the host:
the committed state-change tracker and start hook registered by
`async_added_to_hass`, and the tracker returned by `async_start_preview`. -/
inductive SubKind
  | committedTracker
  | committedStart
  | previewTracker
deriving Repr, DecidableEq

/-- The host-visible effects the entity can perform. -/
inductive HostEffect
  | writeHaState (s : String)
  | previewReport (s : String)
  | subscribePreview
  | unsubscribePreview
  | subscribeCommitted
deriving Repr, DecidableEq

/-- The host as the entity observes it: the last committed (published) state
and the live subscriptions. -/
structure EntityHost where
  committed_state : Option String
  subs : List SubKind
deriving Repr, DecidableEq

/-- How each effect changes the host. -/
def applyEffect (h : EntityHost) : HostEffect → EntityHost
  | .writeHaState s => { h with committed_state := some s }
  | .previewReport _ => h
  | .subscribePreview => { h with subs := h.subs ++ [SubKind.previewTracker] }
  | .unsubscribePreview =>
    { h with subs := h.subs.filter (fun k => !(k = SubKind.previewTracker)) }
  | .subscribeCommitted => { h with subs := h.subs ++ [SubKind.committedTracker] }

/-- The entity-internal operations the preview listener invokes:
`async_update_group_state` (abstract in `GroupEntity`),
`async_update_supported_features`, and `_async_calculate_state`, all acting
only on the entity's internal state `σ`. -/
structure PreviewCtx (σ : Type) where
  update_group_state : σ → σ
  update_supported_features : String → Option State → σ → σ
  calculate_state : σ → String

/-- One invocation of `async_state_changed_listener` inside
`async_start_preview` (lines 56-67): recompute the group state, update
supported features when an event is present, then report the calculated
state through the preview callback.  It emits only a `previewReport`
effect — the listener never calls `async_write_ha_state`. -/
def preview_listener_step {σ : Type} (ctx : PreviewCtx σ) (ev : Option StateEvent)
    (s : σ) (h : EntityHost) : σ × EntityHost × String :=
  let s1 := ctx.update_group_state s
  let s2 :=
    match ev with
    | some e => ctx.update_supported_features e.entity_id e.new_state s1
    | none => s1
  let out := ctx.calculate_state s2
  (s2, applyEffect h (.previewReport out), out)

/-- `GroupEntity.async_start_preview` (lines 44-72) followed by the delivery
of `events` to the registered preview listener: seed supported features from
the live states, run the listener once with no event, register the preview
tracker, then run the listener on each delivered event. -/
def async_start_preview_run {σ : Type} (ctx : PreviewCtx σ)
    (initial : List (String × State)) (events : List StateEvent) (s : σ)
    (h : EntityHost) : σ × EntityHost :=
  let s0 := initial.foldl (fun acc p => ctx.update_supported_features p.1 (some p.2) acc) s
  let first := preview_listener_step ctx none s0 h
  let h1 := applyEffect first.2.1 .subscribePreview
  events.foldl
    (fun acc ev =>
      let step := preview_listener_step ctx (some ev) acc.1 acc.2
      (step.1, step.2.1))
    (first.1, h1)

/-- Calling the disposer returned by `async_start_preview`: it releases
exactly the preview tracker. -/
def dispose_preview (h : EntityHost) : EntityHost :=
  applyEffect h .unsubscribePreview

/-- The committed listener of `Group`/`GroupEntity` by contrast publishes via
`async_write_ha_state`, changing the committed state. -/
def committed_write (h : EntityHost) (s : String) : EntityHost :=
  applyEffect h (.writeHaState s)

/-! ### Concrete sample inputs used by witnesses and counterexamples -/

/-- A registry with one domain (`light`) and the generic on/off pair. -/
def rLight : GroupIntegrationRegistry :=
  { on_off_mapping := [("on", "off")]
    off_on_mapping := [("off", "on")]
    on_states_by_domain := [("light", ["on"])]
    off_state_by_domain := [("light", "off")]
    exclude_domains := ["banned"] }

/-- A group tracking the single member `light.a`, currently on. -/
def gLightOn : Group :=
  { tracking := ["light.a"]
    trackable := ["light.a"]
    single_active_domain := some "light"
    on_off := [("light.a", true)]
    assumed := [("light.a", false)]
    on_states := ["on"]
    state := some "on"
    assumed_state := false
    mode := false
    subscribed := true }

/-- A group tracking the single member `light.a`, currently off. -/
def gLightOff : Group :=
  { tracking := ["light.a"]
    trackable := ["light.a"]
    single_active_domain := some "light"
    on_off := [("light.a", false)]
    assumed := [("light.a", false)]
    on_states := ["on"]
    state := some "off"
    assumed_state := false
    mode := false
    subscribed := true }

/-- A registry with no domain-specific on labels and the overlapping label
`"x"`, both an on label and a key of the off→on mapping. -/
def rOverlap : GroupIntegrationRegistry :=
  { on_off_mapping := [("x", "y")]
    off_on_mapping := [("x", "z")]
    on_states_by_domain := []
    off_state_by_domain := []
    exclude_domains := [] }

/-- A member of the generic domain `grp` reporting the overlapping label. -/
def stOverlap : State :=
  { entity_id := "grp.a", state := "x", assumed_state_attr := false }

/-- A member of the `light` domain reporting an unmapped label. -/
def stGarbage : State :=
  { entity_id := "light.a", state := "garbage", assumed_state_attr := false }

/-- A group with all caches empty (fresh after `_reset_tracked_state` with no
known member states). -/
def gEmpty : Group :=
  { tracking := ["light.a"]
    trackable := ["light.a"]
    single_active_domain := some "light"
    on_off := []
    assumed := []
    on_states := []
    state := none
    assumed_state := false
    mode := false
    subscribed := true }

/-- The removal notification for `light.a`. -/
def evRemoved : StateEvent := { entity_id := "light.a", new_state := none }

/-- The live state of `light.a` being off. -/
def stLightAOff : State :=
  { entity_id := "light.a", state := "off", assumed_state_attr := false }

/-- The relation the `_set_tracked` loop maintains between the accumulated
`trackable` list, the running candidate domain and the `multiple_domains`
flag: before any trackable member the candidate is unset; while a single
domain has been seen the candidate is that common domain; once two distinct
domains have been seen the candidate is permanently cleared. -/
def trackInv (trackable : List String) (sad : Option String) (multi : Bool) : Prop :=
  match multi, sad with
  | false, none => trackable = []
  | false, some d => trackable ≠ [] ∧ ∀ x ∈ trackable, entityDomain x = d
  | true, none => ∃ x ∈ trackable, ∃ y ∈ trackable, entityDomain x ≠ entityDomain y
  | true, some _ => False

/-! ### Basic lemmas about the dictionary and set models -/

theorem scontains_iff_mem (l : List String) (x : String) :
    scontains l x = true ↔ x ∈ l := by
  induction l with
  | nil => simp [scontains]
  | cons y rest ih =>
    by_cases h : y = x
    · simp [scontains, h]
    · have h' : ¬ x = y := fun hx => h hx.symm
      simp [scontains, h, h', ih]

theorem mem_sinsert_self (s : List String) (x : String) : x ∈ sinsert s x := by
  by_cases h : scontains s x
  · simpa [sinsert, h] using (scontains_iff_mem s x).mp h
  · simp [sinsert, h]

theorem mem_sinsert_of_mem (s : List String) (x y : String) (h : y ∈ s) :
    y ∈ sinsert s x := by
  by_cases hc : scontains s x <;> simp [sinsert, hc, h]

theorem dlookup_dinsert_self {α : Type} (l : List (String × α)) (k : String) (v : α) :
    dlookup (dinsert l k v) k = some v := by
  by_cases h : dmem l k
  · simp only [dinsert, h, if_true]
    induction l with
    | nil => simp [dmem, dlookup] at h
    | cons p rest ih =>
      by_cases hp : p.1 = k
      · simp [dlookup, hp]
      · have hm : dmem rest k := by
          simpa [dmem, dlookup, hp] using h
        simpa [dlookup, hp] using ih hm
  · simp only [dinsert, h, if_false]
    induction l with
    | nil => simp [dlookup]
    | cons p rest ih =>
      by_cases hp : p.1 = k
      · exact absurd (by simp [dmem, dlookup, hp]) h
      · have hm : ¬ dmem rest k := by
          simpa [dmem, dlookup, hp] using h
        simpa [dlookup, hp] using ih hm

theorem mem_dinsert {α : Type} (l : List (String × α)) (k : String) (v : α)
    (p : String × α) (h : p ∈ dinsert l k v) : p = (k, v) ∨ p ∈ l := by
  by_cases hm : dmem l k
  · simp only [dinsert, hm, if_true, List.mem_map] at h
    obtain ⟨q, hq, hqe⟩ := h
    by_cases hqk : q.1 = k
    · simp [hqk] at hqe; exact Or.inl hqe.symm
    · simp [hqk] at hqe; exact Or.inr (hqe ▸ hq)
  · have hm' : dmem l k = false := by simpa using hm
    simp only [dinsert, hm', Bool.false_eq_true, if_false, List.mem_append,
      List.mem_singleton] at h
    exact h.elim (fun h1 => Or.inr h1) (fun h2 => Or.inl h2)

/-! ### Field-preservation lemmas for the translated operations -/

@[simp] theorem see_state_trackable (r : GroupIntegrationRegistry) (st : State) (g : Group) :
    (see_state r st g).trackable = g.trackable := by
  cases h : dlookup r.on_states_by_domain st.domain <;> simp [see_state, h]

@[simp] theorem see_state_tracking (r : GroupIntegrationRegistry) (st : State) (g : Group) :
    (see_state r st g).tracking = g.tracking := by
  cases h : dlookup r.on_states_by_domain st.domain <;> simp [see_state, h]

@[simp] theorem see_state_sad (r : GroupIntegrationRegistry) (st : State) (g : Group) :
    (see_state r st g).single_active_domain = g.single_active_domain := by
  cases h : dlookup r.on_states_by_domain st.domain <;> simp [see_state, h]

@[simp] theorem see_state_mode (r : GroupIntegrationRegistry) (st : State) (g : Group) :
    (see_state r st g).mode = g.mode := by
  cases h : dlookup r.on_states_by_domain st.domain <;> simp [see_state, h]

@[simp] theorem see_state_state (r : GroupIntegrationRegistry) (st : State) (g : Group) :
    (see_state r st g).state = g.state := by
  cases h : dlookup r.on_states_by_domain st.domain <;> simp [see_state, h]

@[simp] theorem see_state_assumed_state (r : GroupIntegrationRegistry) (st : State)
    (g : Group) : (see_state r st g).assumed_state = g.assumed_state := by
  cases h : dlookup r.on_states_by_domain st.domain <;> simp [see_state, h]

@[simp] theorem see_state_subscribed (r : GroupIntegrationRegistry) (st : State)
    (g : Group) : (see_state r st g).subscribed = g.subscribed := by
  cases h : dlookup r.on_states_by_domain st.domain <;> simp [see_state, h]

theorem dinsert_ne_nil {α : Type} (l : List (String × α)) (k : String) (v : α) :
    dinsert l k v ≠ [] := by
  by_cases h : dmem l k
  · cases l with
    | nil => simp [dmem, dlookup] at h
    | cons p rest => simp [dinsert, h]
  · have h' : dmem l k = false := by simpa using h
    simp [dinsert, h']

/-- The `_on_off` cache after `_see_state`: the entry for the observed entity
is set per the generic mapping or the domain's on-label set. -/
theorem see_state_on_off (r : GroupIntegrationRegistry) (st : State) (g : Group) :
    (see_state r st g).on_off =
      dinsert g.on_off st.entity_id
        (match dlookup r.on_states_by_domain st.domain with
         | none => dmem r.on_off_mapping st.state
         | some entity_on_state => scontains entity_on_state st.state) := by
  cases h : dlookup r.on_states_by_domain st.domain <;> simp [see_state, h]

/-- The `_assumed` cache after `_see_state`. -/
theorem see_state_assumed (r : GroupIntegrationRegistry) (st : State) (g : Group) :
    (see_state r st g).assumed =
      dinsert g.assumed st.entity_id st.assumed_state_attr := by
  cases h : dlookup r.on_states_by_domain st.domain <;> simp [see_state, h]

/-- The `_on_states` set after `_see_state`. -/
theorem see_state_on_states (r : GroupIntegrationRegistry) (st : State) (g : Group) :
    (see_state r st g).on_states =
      match dlookup r.on_states_by_domain st.domain with
      | none =>
        if dmem r.on_off_mapping st.state then sinsert g.on_states st.state
        else
          match dlookup r.off_on_mapping st.state with
          | some onl => sinsert g.on_states onl
          | none => g.on_states
      | some entity_on_state => supdate g.on_states entity_on_state := by
  cases h : dlookup r.on_states_by_domain st.domain <;> simp [see_state, h]

theorem see_state_on_off_nonempty (r : GroupIntegrationRegistry) (st : State) (g : Group) :
    (see_state r st g).on_off ≠ [] := by
  rw [see_state_on_off]
  exact dinsert_ne_nil _ _ _

@[simp] theorem computeAssumed_trackable (tr : Option State) (g : Group) :
    (computeAssumed tr g).trackable = g.trackable := by
  cases tr with
  | none => rfl
  | some st =>
    simp only [computeAssumed]
    split
    · rfl
    · split <;> rfl

@[simp] theorem computeAssumed_sad (tr : Option State) (g : Group) :
    (computeAssumed tr g).single_active_domain = g.single_active_domain := by
  cases tr with
  | none => rfl
  | some st =>
    simp only [computeAssumed]
    split
    · rfl
    · split <;> rfl

@[simp] theorem computeAssumed_on_off (tr : Option State) (g : Group) :
    (computeAssumed tr g).on_off = g.on_off := by
  cases tr with
  | none => rfl
  | some st =>
    simp only [computeAssumed]
    split
    · rfl
    · split <;> rfl

@[simp] theorem computeAssumed_on_states (tr : Option State) (g : Group) :
    (computeAssumed tr g).on_states = g.on_states := by
  cases tr with
  | none => rfl
  | some st =>
    simp only [computeAssumed]
    split
    · rfl
    · split <;> rfl

@[simp] theorem computeAssumed_mode (tr : Option State) (g : Group) :
    (computeAssumed tr g).mode = g.mode := by
  cases tr with
  | none => rfl
  | some st =>
    simp only [computeAssumed]
    split
    · rfl
    · split <;> rfl

@[simp] theorem computeState_assumed_state (r : GroupIntegrationRegistry)
    (states : List (String × State)) (g : Group) :
    (computeState r states g).assumed_state = g.assumed_state := by
  simp only [computeState]
  split
  · rfl
  · split <;> rfl

theorem computeAssumed_assumed_state (tr : Option State) (g : Group) :
    (computeAssumed tr g).assumed_state =
      match tr with
      | none => applyMode g.mode (g.assumed.map Prod.snd)
      | some st =>
        if g.assumed_state && !st.assumed_state_attr then
          applyMode g.mode (g.assumed.map Prod.snd)
        else if st.assumed_state_attr then true
        else g.assumed_state := by
  cases tr with
  | none => rfl
  | some st =>
    by_cases h1 : (g.assumed_state && !st.assumed_state_attr) = true
    · simp [computeAssumed, h1]
    · by_cases h2 : st.assumed_state_attr = true
      · simp [computeAssumed, h1, h2]
      · simp only [computeAssumed, h1, h2]
        have h3 : g.assumed_state = false := by
          cases hb : g.assumed_state <;> simp_all
        simp [h3]

@[simp] theorem seeOpt_none (r : GroupIntegrationRegistry) (g : Group) :
    seeOpt r none g = g := rfl

@[simp] theorem seeOpt_some (r : GroupIntegrationRegistry) (st : State) (g : Group) :
    seeOpt r (some st) g = see_state r st g := rfl

theorem seeOpt_mode (r : GroupIntegrationRegistry) (tr : Option State) (g : Group) :
    (seeOpt r tr g).mode = g.mode := by
  cases tr <;> simp

theorem seeOpt_trackable (r : GroupIntegrationRegistry) (tr : Option State) (g : Group) :
    (seeOpt r tr g).trackable = g.trackable := by
  cases tr <;> simp

theorem seeOpt_sad (r : GroupIntegrationRegistry) (tr : Option State) (g : Group) :
    (seeOpt r tr g).single_active_domain = g.single_active_domain := by
  cases tr <;> simp

theorem seeOpt_assumed_state (r : GroupIntegrationRegistry) (tr : Option State)
    (g : Group) : (seeOpt r tr g).assumed_state = g.assumed_state := by
  cases tr <;> simp

theorem seeOpt_state (r : GroupIntegrationRegistry) (tr : Option State) (g : Group) :
    (seeOpt r tr g).state = g.state := by
  cases tr <;> simp

/-- `_reset_tracked_state` when no trackable member's live state is
retrievable: the caches end up empty and every other field is untouched. -/
theorem reset_tracked_state_all_gone (r : GroupIntegrationRegistry)
    (states : List (String × State)) (g : Group)
    (h : ∀ eid ∈ g.trackable, dlookup states eid = none) :
    reset_tracked_state r states g =
      { g with on_off := [], assumed := [], on_states := [] } := by
  unfold reset_tracked_state
  have key : ∀ (l : List String) (acc : Group),
      (∀ eid ∈ l, dlookup states eid = none) →
      l.foldl
        (fun acc entity_id =>
          match dlookup states entity_id with
          | some st => see_state r st acc
          | none => acc)
        acc = acc := by
    intro l
    induction l with
    | nil => intro acc _; rfl
    | cons e t ih =>
      intro acc hh
      have he : dlookup states e = none := hh e (List.mem_cons_self e t)
      simp only [List.foldl_cons, he]
      exact ih acc (fun x hx => hh x (List.mem_cons_of_mem e hx))
  exact key g.trackable _ h

theorem dlookup_mem {α : Type} (l : List (String × α)) (k : String) (v : α)
    (h : dlookup l k = some v) : (k, v) ∈ l := by
  induction l with
  | nil => cases h
  | cons p rest ih =>
    by_cases hp : p.1 = k
    · rw [dlookup, if_pos hp] at h
      injection h with h
      cases p with
      | mk a b =>
        simp only at hp h
        subst hp
        subst h
        exact List.mem_cons_self _ _
    · rw [dlookup, if_neg hp] at h
      exact List.mem_cons_of_mem _ (ih h)

/-- `setTrackedLoop` appends the lower-cased ids to `tracking`
unconditionally, in input order. -/
theorem setTrackedLoop_tracking (excl : List String) (ids : List String) :
    ∀ (tr tb : List String) (sad : Option String) (multi : Bool),
      (setTrackedLoop excl ids tr tb sad multi).1 = tr ++ ids.map lowerStr := by
  induction ids with
  | nil => intro tr tb sad multi; simp [setTrackedLoop]
  | cons e rest ih =>
    intro tr tb sad multi
    simp only [setTrackedLoop, List.map_cons]
    split
    · rw [ih]; simp
    · split
      · rw [if_pos rfl, ih]; simp
      · split
        · rw [ih]; simp
        · rw [ih]; simp

/-- `setTrackedLoop` appends to `trackable` exactly the lower-cased ids whose
domain is not excluded, in input order. -/
theorem setTrackedLoop_trackable (excl : List String) (ids : List String) :
    ∀ (tr tb : List String) (sad : Option String) (multi : Bool),
      (setTrackedLoop excl ids tr tb sad multi).2.1 =
        tb ++ (ids.map lowerStr).filter
          (fun e => !(scontains excl (entityDomain e))) := by
  induction ids with
  | nil => intro tr tb sad multi; simp [setTrackedLoop]
  | cons e rest ih =>
    intro tr tb sad multi
    simp only [setTrackedLoop, List.map_cons, List.filter_cons]
    by_cases hex : scontains excl (entityDomain (lowerStr e)) = true
    · simp only [hex, if_true, Bool.not_true, Bool.false_eq_true, if_false]
      rw [ih]
    · have hex' : scontains excl (entityDomain (lowerStr e)) = false := by
        simpa using hex
      simp only [hex', Bool.false_eq_true, if_false, Bool.not_false, if_true]
      split
      · rw [if_pos rfl, ih]; simp
      · split
        · rw [ih]; simp
        · rw [ih]; simp

/-- The final candidate domain of `setTrackedLoop` characterises the final
`trackable` list: it is `some d` exactly when `trackable` ends non-empty with
every member in domain `d`. -/
theorem setTrackedLoop_sadSpec (excl : List String) (ids : List String) :
    ∀ (tr tb : List String) (sad : Option String) (multi : Bool),
      trackInv tb sad multi →
      ∀ d : String,
        (setTrackedLoop excl ids tr tb sad multi).2.2 = some d ↔
          ((setTrackedLoop excl ids tr tb sad multi).2.1 ≠ [] ∧
           ∀ x ∈ (setTrackedLoop excl ids tr tb sad multi).2.1,
             entityDomain x = d) := by
  induction ids with
  | nil =>
    intro tr tb sad multi hinv d
    simp only [setTrackedLoop]
    cases multi with
    | false =>
      cases sad with
      | none =>
        simp only [trackInv] at hinv
        subst hinv
        simp
      | some d0 =>
        obtain ⟨hne, hall⟩ := hinv
        constructor
        · intro h
          injection h with h
          subst h
          exact ⟨hne, hall⟩
        · rintro ⟨hne2, hall2⟩
          cases hq : tb with
          | nil => exact absurd hq hne
          | cons a t =>
            have h1 : entityDomain a = d0 :=
              hall a (by rw [hq]; exact List.mem_cons_self a t)
            have h2 : entityDomain a = d :=
              hall2 a (by rw [hq]; exact List.mem_cons_self a t)
            rw [← h1, h2]
    | true =>
      cases sad with
      | none =>
        obtain ⟨x, hx, y, hy, hxy⟩ := hinv
        constructor
        · intro h; cases h
        · rintro ⟨hne2, hall2⟩
          exact absurd ((hall2 x hx).trans (hall2 y hy).symm) hxy
      | some d0 => exact absurd hinv (by simp [trackInv])
  | cons e rest ih =>
    intro tr tb sad multi hinv d
    simp only [setTrackedLoop]
    split
    · exact ih _ tb sad multi hinv d
    next hex =>
      split
      next hcond =>
        have hmulti : multi = false := by
          cases multi with
          | false => rfl
          | true => simp at hcond
        have hsad : sad = none := by
          cases sad with
          | none => rfl
          | some d0 => subst hmulti; simp at hcond
        subst hmulti
        subst hsad
        simp only [trackInv] at hinv
        subst hinv
        rw [if_pos rfl]
        refine ih _ _ _ _ ?_ d
        refine ⟨by simp, ?_⟩
        intro x hx
        simp only [List.nil_append, List.mem_singleton] at hx
        subst hx
        rfl
      next hcond =>
        split
        next heq =>
          cases multi with
          | true =>
            rw [heq] at hinv
            exact absurd hinv (by simp [trackInv])
          | false =>
            subst heq
            obtain ⟨hne, hall⟩ := hinv
            refine ih _ _ _ _ ?_ d
            constructor
            · intro hq
              exact hne (List.append_eq_nil.mp hq).1
            · intro x hx
              rcases List.mem_append.mp hx with hx | hx
              · exact hall x hx
              · rw [List.mem_singleton.mp hx]
        next hneq =>
          refine ih _ _ _ _ ?_ d
          cases multi with
          | true =>
            cases sad with
            | none =>
              obtain ⟨x, hx, y, hy, hxy⟩ := hinv
              exact ⟨x, List.mem_append_left _ hx, y, List.mem_append_left _ hy, hxy⟩
            | some d0 => exact absurd hinv (by simp [trackInv])
          | false =>
            cases sad with
            | none => simp at hcond
            | some d0 =>
              obtain ⟨hne, hall⟩ := hinv
              have hd0 : ¬ d0 = entityDomain (lowerStr e) := by
                intro hq
                exact hneq (by rw [hq])
              cases tb with
              | nil => exact absurd rfl hne
              | cons a t =>
                refine ⟨a, ?_, lowerStr e, ?_, ?_⟩
                · exact List.mem_append_left _ (List.mem_cons_self a t)
                · exact List.mem_append_right _ (List.mem_singleton.mpr rfl)
                · rw [hall a (List.mem_cons_self a t)]
                  exact hd0

/-! ### Claim theorems -/

/-- C10: a state-change event delivered after the group has been unsubscribed
(the subscription handle is gone) is ignored: the listener returns the group
unchanged, so all caches, the aggregate state and the assumed flag are
identical before and after the call. -/
theorem claim10_listener_noop_when_unsubscribed (r : GroupIntegrationRegistry)
    (states : List (String × State)) (ev : StateEvent) (g : Group)
    (h : g.subscribed = false) :
    state_changed_listener r states ev g = g := by
  simp [state_changed_listener, h]

/-- Witness for C10 at a concrete unsubscribed group. -/
theorem claim10_witness :
    state_changed_listener rLight [] evRemoved { gLightOn with subscribed := false } =
      { gLightOn with subscribed := false } :=
  claim10_listener_noop_when_unsubscribed rLight [] evRemoved
    { gLightOn with subscribed := false } rfl

/-- C3: on every recompute with a non-empty `onOff` cache, the assumed flag is
recomputed as the combinator over all cached per-member assumed flags when the
recompute is full or the group was already assumed and the changed member is
not assumed; it is forced to `true` when the changed member is assumed; and it
is left unchanged in all other cases. -/
theorem claim3_assumed_state_update (r : GroupIntegrationRegistry)
    (states : List (String × State)) (tr_state : Option State) (g : Group)
    (h : (seeOpt r tr_state g).on_off ≠ []) :
    (update_group_state r states tr_state g).assumed_state =
      match tr_state with
      | none => applyMode g.mode ((seeOpt r tr_state g).assumed.map Prod.snd)
      | some st =>
        if g.assumed_state && !st.assumed_state_attr then
          applyMode g.mode ((seeOpt r tr_state g).assumed.map Prod.snd)
        else if st.assumed_state_attr then true
        else g.assumed_state := by
  have hne : (seeOpt r tr_state g).on_off.isEmpty = false := by
    cases hq : (seeOpt r tr_state g).on_off with
    | nil => exact absurd hq h
    | cons a l => rfl
  simp only [update_group_state, hne, Bool.false_eq_true, if_false,
    computeState_assumed_state, computeAssumed_assumed_state]
  cases tr_state with
  | none => simp
  | some st => simp

/-- Witness for C3: a full recompute over a one-member cache flips the
assumed flag to the combinator of the cached flags. -/
theorem claim3_witness :
    (update_group_state rLight [("light.a", stLightAOff)] none gLightOn).assumed_state =
      applyMode gLightOn.mode ((seeOpt rLight none gLightOn).assumed.map Prod.snd) :=
  claim3_assumed_state_update rLight [("light.a", stLightAOff)] none gLightOn
    (by decide)

/-- C8: whenever the recompute reaches the on-label determination step with
non-empty caches and the group on, the `on_state` local is assigned by one of
the three branches (modelled: `computeOnLabel` returns `some`), and the
aggregate becomes exactly that label — the unassigned read is unreachable. -/
theorem claim8_on_label_assigned (r : GroupIntegrationRegistry)
    (states : List (String × State)) (g : Group)
    (hne : g.on_off ≠ []) (hon : g.on_states ≠ [])
    (hison : applyMode g.mode (g.on_off.map Prod.snd) = true) :
    ∃ l, computeOnLabel r states g true = some l ∧
      (computeState r states g).state = some l := by
  have hlen : ¬ g.on_states.length = 0 := by
    simpa [List.length_eq_zero] using hon
  have hsome : (computeOnLabel r states g true).isSome = true := by
    simp only [computeOnLabel]
    split
    · cases hq : g.on_states with
      | nil => exact absurd hq hon
      | cons a t => rfl
    · split
      · rfl
      · simp
  obtain ⟨l, hl⟩ := Option.isSome_iff_exists.mp hsome
  refine ⟨l, hl, ?_⟩
  simp only [computeState, hlen, if_false, hison, if_true, hl]

/-- Witness for C8 at a concrete one-member group that is on. -/
theorem claim8_witness :
    ∃ l, computeOnLabel rLight [("light.a", stLightAOff)] gLightOn true = some l ∧
      (computeState rLight [("light.a", stLightAOff)] gLightOn).state = some l :=
  claim8_on_label_assigned rLight [("light.a", stLightAOff)] gLightOn
    (by decide) (by decide) (by decide)

/-- C1 counterexample: a group whose caches hold exactly one known member
(`light.a`, on, aggregate `"on"`) receives a removal notification (null new
state) with the member's state gone from the live store.  The caches are
fully reset (they end empty), but the aggregate state stays `"on"` — it does
not become unknown, refuting the claim. -/
theorem claim1_counterexample :
    gLightOn.on_off.length = 1 ∧ evRemoved.new_state = none ∧
    dlookup ([] : List (String × State)) "light.a" = none ∧
    (state_changed_listener rLight [] evRemoved gLightOn).on_off = [] ∧
    (state_changed_listener rLight [] evRemoved gLightOn).on_states = [] ∧
    (state_changed_listener rLight [] evRemoved gLightOn).state = some "on" := by
  decide

/-- C1 amended: a removal notification on a subscribed group whose trackable
members have no retrievable live state causes a full cache reset (all three
caches end empty), after which the recompute early-returns on the empty
`onOff` cache and leaves the aggregate state unchanged (stale), not unknown. -/
theorem claim1_amended_reset_keeps_stale_state (r : GroupIntegrationRegistry)
    (states : List (String × State)) (ev : StateEvent) (g : Group)
    (hsub : g.subscribed = true) (hnull : ev.new_state = none)
    (hgone : ∀ eid ∈ g.trackable, dlookup states eid = none) :
    (state_changed_listener r states ev g).on_off = [] ∧
    (state_changed_listener r states ev g).assumed = [] ∧
    (state_changed_listener r states ev g).on_states = [] ∧
    (state_changed_listener r states ev g).state = g.state := by
  simp only [state_changed_listener, hsub, Bool.not_true, Bool.false_eq_true,
    if_false, hnull]
  rw [reset_tracked_state_all_gone r states g hgone]
  simp [update_group_state, seeOpt]

/-- C2: on every recompute in which the group is off and `onStateLabels` is
non-empty, the aggregate becomes the single active domain's canonical off
label when registered, and otherwise the unique live off label found by
detection with `wantOn = false`, falling back to the generic `"off"` label
(`specOffRule`).  `single_active_domain` is never the empty string for groups
built from well-formed entity ids, which is assumed here because Python tests
its truthiness. -/
theorem claim2_off_label_selection (r : GroupIntegrationRegistry)
    (states : List (String × State)) (tr_state : Option State) (g : Group)
    (hne : (seeOpt r tr_state g).on_off ≠ [])
    (hon : (seeOpt r tr_state g).on_states ≠ [])
    (hoff : applyMode g.mode ((seeOpt r tr_state g).on_off.map Prod.snd) = false)
    (hsad : g.single_active_domain ≠ some "") :
    (update_group_state r states tr_state g).state =
      some (specOffRule r states g) := by
  have hne' : (seeOpt r tr_state g).on_off.isEmpty = false := by
    cases hq : (seeOpt r tr_state g).on_off with
    | nil => exact absurd hq hne
    | cons a l => rfl
  have hmode : (seeOpt r tr_state g).mode = g.mode := seeOpt_mode r tr_state g
  have htrack : (seeOpt r tr_state g).trackable = g.trackable :=
    seeOpt_trackable r tr_state g
  have hsad1 : (seeOpt r tr_state g).single_active_domain = g.single_active_domain :=
    seeOpt_sad r tr_state g
  have hlen : ¬ (computeAssumed tr_state (seeOpt r tr_state g)).on_states.length = 0 := by
    rw [computeAssumed_on_states]
    simpa [List.length_eq_zero] using hon
  have hgio : applyMode (computeAssumed tr_state (seeOpt r tr_state g)).mode
      ((computeAssumed tr_state (seeOpt r tr_state g)).on_off.map Prod.snd) = false := by
    rw [computeAssumed_mode, computeAssumed_on_off, hmode]
    exact hoff
  simp only [update_group_state, hne', Bool.false_eq_true, if_false]
  simp only [computeState, hlen, if_false, hgio]
  have hdet : detect_specific_on_off_state r states
      (computeAssumed tr_state (seeOpt r tr_state g)) false =
      detect_specific_on_off_state r states g false := by
    simp only [detect_specific_on_off_state, computeAssumed_trackable, htrack]
  simp only [computeOffLabel, specOffRule, computeAssumed_sad, hsad1, hdet]
  cases hts : g.single_active_domain with
  | none => rfl
  | some d =>
    have hd : ¬ d = "" := by
      intro hde
      exact hsad (by rw [hts, hde])
    simp only [hd, if_false]
    cases hdl : dlookup r.off_state_by_domain d <;> rfl

/-- Witness for C2: a one-member `light` group that is off takes the domain's
canonical off label. -/
theorem claim2_witness :
    (update_group_state rLight [("light.a", stLightAOff)] none gLightOff).state =
      some (specOffRule rLight [("light.a", stLightAOff)] gLightOff) :=
  claim2_off_label_selection rLight [("light.a", stLightAOff)] none gLightOff
    (by decide) (by decide) (by decide) (by decide)

/-- C4 counterexample: with `"x"` both a generic on label and a key of the
off→on mapping (mapped to `"z"`), observing a generic-domain member reporting
`"x"` does not add the mapped on label `"z"` — the source's `elif` only adds
it when the label is not itself an on label, refuting the claim's unconditional
"adds the mapped on-label when the label is a key of offOnMapping". -/
theorem claim4_counterexample :
    dlookup rOverlap.on_states_by_domain stOverlap.domain = none ∧
    dlookup rOverlap.off_on_mapping stOverlap.state = some "z" ∧
    ("z" ∈ (see_state rOverlap stOverlap gEmpty).on_states → False) := by
  decide

/-- C4 amended: for a member whose domain is absent from `onStatesByDomain`,
`_see_state` sets `onOff[entity]` to the boolean `onOffMapping` associates
with the observed label (false when absent), adds the label itself to
`onStateLabels` when it is an on label, and otherwise adds the mapped on label
when the label is a key of `offOnMapping`. -/
theorem claim4_amended_generic_domain_observation (r : GroupIntegrationRegistry)
    (st : State) (g : Group)
    (hdom : dlookup r.on_states_by_domain st.domain = none) :
    dlookup (see_state r st g).on_off st.entity_id =
      some (onOffMappingBool r st.state) ∧
    (onOffMappingBool r st.state = true →
      st.state ∈ (see_state r st g).on_states) ∧
    (onOffMappingBool r st.state = false →
      ∀ m, dlookup r.off_on_mapping st.state = some m →
        m ∈ (see_state r st g).on_states) := by
  refine ⟨?_, ?_, ?_⟩
  · simp only [see_state_on_off, hdom]
    exact dlookup_dinsert_self g.on_off st.entity_id (dmem r.on_off_mapping st.state)
  · intro hb
    have hb' : dmem r.on_off_mapping st.state = true := hb
    simp only [see_state_on_states, hdom, hb', if_true]
    exact mem_sinsert_self g.on_states st.state
  · intro hb m hm
    have hb' : dmem r.on_off_mapping st.state = false := hb
    simp only [see_state_on_states, hdom, hb', Bool.false_eq_true, if_false, hm]
    exact mem_sinsert_self g.on_states m

/-- Witness for the amended C4: observing `grp.a` in state `"x"` under the
overlap registry sets `onOff` and adds `"x"` itself. -/
theorem claim4_witness :
    dlookup (see_state rOverlap stOverlap gEmpty).on_off stOverlap.entity_id =
      some (onOffMappingBool rOverlap stOverlap.state) ∧
    (onOffMappingBool rOverlap stOverlap.state = true →
      stOverlap.state ∈ (see_state rOverlap stOverlap gEmpty).on_states) ∧
    (onOffMappingBool rOverlap stOverlap.state = false →
      ∀ m, dlookup rOverlap.off_on_mapping stOverlap.state = some m →
        m ∈ (see_state rOverlap stOverlap gEmpty).on_states) :=
  claim4_amended_generic_domain_observation rOverlap stOverlap gEmpty (by decide)

/-- C5 counterexample: `light.a` reports `"garbage"`, which matches no on or
off mapping entry for its domain or generically; `_see_state` records
`onOff = false` as claimed, but still adds the domain's entire on-label set
(`{"on"}`) to `onStateLabels`, so the set is not unchanged. -/
theorem claim5_counterexample :
    dmem rLight.on_off_mapping stGarbage.state = false ∧
    dmem rLight.off_on_mapping stGarbage.state = false ∧
    dlookup rLight.on_states_by_domain stGarbage.domain = some ["on"] ∧
    scontains ["on"] stGarbage.state = false ∧
    dlookup rLight.off_state_by_domain stGarbage.domain = some "off" ∧
    ("off" = stGarbage.state → False) ∧
    dlookup (see_state rLight stGarbage gEmpty).on_off stGarbage.entity_id =
      some false ∧
    ((see_state rLight stGarbage gEmpty).on_states = gEmpty.on_states → False) := by
  decide

/-- C5 amended: a member whose label matches neither an on- nor an
off-mapping entry is recorded as off (`onOff[entity] = false`); its
observation leaves `onStateLabels` unchanged when its domain is absent from
`onStatesByDomain`, but when the domain is present the domain's entire
on-label set is still added. -/
theorem claim5_amended_unmatched_label (r : GroupIntegrationRegistry)
    (st : State) (g : Group)
    (h1 : dmem r.on_off_mapping st.state = false)
    (h2 : dlookup r.off_on_mapping st.state = none)
    (h3 : ∀ ls, dlookup r.on_states_by_domain st.domain = some ls →
      scontains ls st.state = false) :
    dlookup (see_state r st g).on_off st.entity_id = some false ∧
    (dlookup r.on_states_by_domain st.domain = none →
      (see_state r st g).on_states = g.on_states) ∧
    (∀ ls, dlookup r.on_states_by_domain st.domain = some ls →
      (see_state r st g).on_states = supdate g.on_states ls) := by
  cases hd : dlookup r.on_states_by_domain st.domain with
  | none =>
    refine ⟨?_, ?_, ?_⟩
    · simp only [see_state_on_off, hd, h1]
      exact dlookup_dinsert_self g.on_off st.entity_id false
    · intro _
      simp only [see_state_on_states, hd, h1, Bool.false_eq_true, if_false, h2]
    · intro ls hls
      cases hls
  | some ls0 =>
    have hc : scontains ls0 st.state = false := h3 ls0 hd
    refine ⟨?_, ?_, ?_⟩
    · simp only [see_state_on_off, hd, hc]
      exact dlookup_dinsert_self g.on_off st.entity_id false
    · intro hn
      cases hn
    · intro ls hls
      cases hls
      simp only [see_state_on_states, hd]

/-- Witness for the amended C5 at the `"garbage"` member. -/
theorem claim5_witness :
    dlookup (see_state rLight stGarbage gEmpty).on_off stGarbage.entity_id =
      some false ∧
    (dlookup rLight.on_states_by_domain stGarbage.domain = none →
      (see_state rLight stGarbage gEmpty).on_states = gEmpty.on_states) ∧
    (∀ ls, dlookup rLight.on_states_by_domain stGarbage.domain = some ls →
      (see_state rLight stGarbage gEmpty).on_states =
        supdate gEmpty.on_states ls) :=
  claim5_amended_unmatched_label rLight stGarbage gEmpty (by decide) (by decide)
    (by
      have hon : dlookup rLight.on_states_by_domain stGarbage.domain = some ["on"] := by
        decide
      intro ls hls
      rw [hon] at hls
      cases hls
      decide)

/-- Witness for the amended C1 at the concrete one-member group. -/
theorem claim1_witness :
    (state_changed_listener rLight [] evRemoved gLightOn).on_off = [] ∧
    (state_changed_listener rLight [] evRemoved gLightOn).assumed = [] ∧
    (state_changed_listener rLight [] evRemoved gLightOn).on_states = [] ∧
    (state_changed_listener rLight [] evRemoved gLightOn).state = gLightOn.state :=
  claim1_amended_reset_keeps_stale_state rLight [] evRemoved gLightOn rfl rfl
    (by decide)

/-- C6: after membership computation, `single_active_domain` is `some d`
exactly when `trackable` is non-empty and every trackable member's domain is
`d`; in particular it is non-null iff all trackable members share one domain,
and the moment a second distinct domain appears it is null for good. -/
theorem claim6_single_active_domain_iff (r : GroupIntegrationRegistry)
    (entity_ids : Option (List String)) (g : Group) (d : String) :
    (set_tracked r entity_ids g).single_active_domain = some d ↔
      ((set_tracked r entity_ids g).trackable ≠ [] ∧
       ∀ x ∈ (set_tracked r entity_ids g).trackable, entityDomain x = d) := by
  cases entity_ids with
  | none => simp [set_tracked]
  | some ids =>
    by_cases hid : ids.isEmpty = true
    · simp [set_tracked, hid]
    · have hid' : ids.isEmpty = false := by simpa using hid
      simp only [set_tracked, hid', Bool.false_eq_true, if_false]
      exact setTrackedLoop_sadSpec r.exclude_domains ids [] [] none false rfl d

/-- Witness for C6: two same-domain members yield `some "light"`. -/
theorem claim6_witness :
    (set_tracked rLight (some ["light.a", "Light.C"]) gEmpty).single_active_domain =
      some "light" ↔
      ((set_tracked rLight (some ["light.a", "Light.C"]) gEmpty).trackable ≠ [] ∧
       ∀ x ∈ (set_tracked rLight (some ["light.a", "Light.C"]) gEmpty).trackable,
         entityDomain x = "light") :=
  claim6_single_active_domain_iff rLight (some ["light.a", "Light.C"]) gEmpty "light"

/-- After a full reset, every key of the `onOff` and `assumed` caches is a
trackable member (given that the live store indexes states by their own
entity id). -/
theorem reset_tracked_state_keys (r : GroupIntegrationRegistry)
    (states : List (String × State)) (g : Group)
    (hwf : ∀ p ∈ states, (p.2).entity_id = p.1) :
    (∀ kv ∈ (reset_tracked_state r states g).on_off, kv.1 ∈ g.trackable) ∧
    (∀ kv ∈ (reset_tracked_state r states g).assumed, kv.1 ∈ g.trackable) := by
  unfold reset_tracked_state
  have key : ∀ (l : List String) (acc : Group),
      (∀ x ∈ l, x ∈ g.trackable) →
      (∀ kv ∈ acc.on_off, kv.1 ∈ g.trackable) →
      (∀ kv ∈ acc.assumed, kv.1 ∈ g.trackable) →
      (∀ kv ∈ (l.foldl
          (fun acc entity_id =>
            match dlookup states entity_id with
            | some st => see_state r st acc
            | none => acc)
          acc).on_off, kv.1 ∈ g.trackable) ∧
      (∀ kv ∈ (l.foldl
          (fun acc entity_id =>
            match dlookup states entity_id with
            | some st => see_state r st acc
            | none => acc)
          acc).assumed, kv.1 ∈ g.trackable) := by
    intro l
    induction l with
    | nil => intro acc _ h1 h2; exact ⟨h1, h2⟩
    | cons e t ih =>
      intro acc hl h1 h2
      rw [List.foldl_cons]
      cases hd : dlookup states e with
      | none =>
        exact ih acc (fun x hx => hl x (List.mem_cons_of_mem e hx)) h1 h2
      | some st =>
        have hid : st.entity_id = e := hwf (e, st) (dlookup_mem states e st hd)
        refine ih (see_state r st acc)
          (fun x hx => hl x (List.mem_cons_of_mem e hx)) ?_ ?_
        · intro kv hkv
          rw [see_state_on_off] at hkv
          rcases mem_dinsert _ _ _ kv hkv with hkv | hkv
          · rw [hkv, hid]
            exact hl e (List.mem_cons_self e t)
          · exact h1 kv hkv
        · intro kv hkv
          rw [see_state_assumed] at hkv
          rcases mem_dinsert _ _ _ kv hkv with hkv | hkv
          · rw [hkv, hid]
            exact hl e (List.mem_cons_self e t)
          · exact h2 kv hkv
  exact key g.trackable _ (fun x hx => hx) (by simp) (by simp)

/-- C7: `tracking` is the input ids lower-cased in order; `trackable` is the
subsequence of `tracking` excluding exactly the excluded-domain ids (same
order, duplicates preserved, here expressed as a filter); and after a full
reset the keys of the `onOff` and `assumed` caches all lie in `trackable`. -/
theorem claim7_membership_shape_and_cache_keys (r : GroupIntegrationRegistry)
    (entity_ids : Option (List String)) (g : Group)
    (states : List (String × State))
    (hwf : ∀ p ∈ states, (p.2).entity_id = p.1) :
    (set_tracked r entity_ids g).tracking =
      (entity_ids.getD []).map lowerStr ∧
    (set_tracked r entity_ids g).trackable =
      ((set_tracked r entity_ids g).tracking).filter
        (fun e => !(scontains r.exclude_domains (entityDomain e))) ∧
    (∀ kv ∈ (reset_tracked_state r states (set_tracked r entity_ids g)).on_off,
      kv.1 ∈ (set_tracked r entity_ids g).trackable) ∧
    (∀ kv ∈ (reset_tracked_state r states (set_tracked r entity_ids g)).assumed,
      kv.1 ∈ (set_tracked r entity_ids g).trackable) := by
  have hkeys := reset_tracked_state_keys r states (set_tracked r entity_ids g) hwf
  refine ⟨?_, ?_, hkeys.1, hkeys.2⟩
  · cases entity_ids with
    | none => simp [set_tracked]
    | some ids =>
      by_cases hid : ids.isEmpty = true
      · rw [List.isEmpty_iff] at hid
        simp [set_tracked, hid]
      · have hid' : ids.isEmpty = false := by simpa using hid
        simp only [set_tracked, hid', Bool.false_eq_true, if_false, Option.getD_some]
        rw [setTrackedLoop_tracking]
        simp
  · cases entity_ids with
    | none => simp [set_tracked]
    | some ids =>
      by_cases hid : ids.isEmpty = true
      · rw [List.isEmpty_iff] at hid
        simp [set_tracked, hid]
      · have hid' : ids.isEmpty = false := by simpa using hid
        simp only [set_tracked, hid', Bool.false_eq_true, if_false]
        rw [setTrackedLoop_trackable, setTrackedLoop_tracking]
        simp

/-- Witness for C7: a mixed-case, mixed-domain input with one excluded
member and a one-member store. -/
theorem claim7_witness :
    (set_tracked rLight (some ["Light.A", "banned.b", "light.c"]) gEmpty).tracking =
      ((some ["Light.A", "banned.b", "light.c"] : Option (List String)).getD []).map
        lowerStr ∧
    (set_tracked rLight (some ["Light.A", "banned.b", "light.c"]) gEmpty).trackable =
      ((set_tracked rLight (some ["Light.A", "banned.b", "light.c"]) gEmpty).tracking).filter
        (fun e => !(scontains rLight.exclude_domains (entityDomain e))) ∧
    (∀ kv ∈ (reset_tracked_state rLight [("light.a", stLightAOff)]
        (set_tracked rLight (some ["Light.A", "banned.b", "light.c"]) gEmpty)).on_off,
      kv.1 ∈ (set_tracked rLight (some ["Light.A", "banned.b", "light.c"]) gEmpty).trackable) ∧
    (∀ kv ∈ (reset_tracked_state rLight [("light.a", stLightAOff)]
        (set_tracked rLight (some ["Light.A", "banned.b", "light.c"]) gEmpty)).assumed,
      kv.1 ∈ (set_tracked rLight (some ["Light.A", "banned.b", "light.c"]) gEmpty).trackable) :=
  claim7_membership_shape_and_cache_keys rLight
    (some ["Light.A", "banned.b", "light.c"]) gEmpty [("light.a", stLightAOff)]
    (by decide)

theorem preview_listener_step_host {σ : Type} (ctx : PreviewCtx σ)
    (ev : Option StateEvent) (s : σ) (h : EntityHost) :
    (preview_listener_step ctx ev s h).2.1 = h := by
  cases ev <;> rfl

theorem preview_fold_host {σ : Type} (ctx : PreviewCtx σ) (events : List StateEvent) :
    ∀ p : σ × EntityHost,
      (events.foldl
        (fun acc ev =>
          let step := preview_listener_step ctx (some ev) acc.1 acc.2
          (step.1, step.2.1))
        p).2 = p.2 := by
  induction events with
  | nil => intro p; rfl
  | cons e t ih =>
    intro p
    rw [List.foldl_cons, ih]
    exact preview_listener_step_host ctx (some e) p.1 p.2

/-- Running `async_start_preview` and delivering any number of events adds
exactly the preview tracker to the host's subscriptions and performs no other
host effect. -/
theorem async_start_preview_run_host {σ : Type} (ctx : PreviewCtx σ)
    (initial : List (String × State)) (events : List StateEvent) (s : σ)
    (h : EntityHost) :
    (async_start_preview_run ctx initial events s h).2 =
      { h with subs := h.subs ++ [SubKind.previewTracker] } := by
  unfold async_start_preview_run
  rw [preview_fold_host]
  rw [preview_listener_step_host]
  rfl

/-- C9: for every group-entity internal state, every initial store and every
number of delivered preview notifications, the preview path followed by its
disposal leaves the committed (published) aggregate state untouched and
leaves every committed subscription exactly as it was — only the preview
tracker is added and then removed. -/
theorem claim9_preview_never_touches_committed (σ : Type) (ctx : PreviewCtx σ)
    (initial : List (String × State)) (events : List StateEvent) (s : σ)
    (h : EntityHost) :
    (dispose_preview (async_start_preview_run ctx initial events s h).2).committed_state =
      h.committed_state ∧
    (SubKind.committedTracker ∈
        (dispose_preview (async_start_preview_run ctx initial events s h).2).subs ↔
      SubKind.committedTracker ∈ h.subs) ∧
    (SubKind.committedStart ∈
        (dispose_preview (async_start_preview_run ctx initial events s h).2).subs ↔
      SubKind.committedStart ∈ h.subs) := by
  rw [async_start_preview_run_host]
  refine ⟨rfl, ?_, ?_⟩ <;>
    simp [dispose_preview, applyEffect, List.mem_filter]

/-- Witness for C9 at a concrete context, host and event list. -/
theorem claim9_witness :
    (dispose_preview (async_start_preview_run
        ⟨id, fun _ _ s => s, fun _ => "on"⟩ [("light.a", stLightAOff)] [evRemoved] ()
        ⟨some "off", [SubKind.committedTracker, SubKind.committedStart]⟩).2).committed_state =
      (⟨some "off", [SubKind.committedTracker, SubKind.committedStart]⟩ : EntityHost).committed_state ∧
    (SubKind.committedTracker ∈
        (dispose_preview (async_start_preview_run
          ⟨id, fun _ _ s => s, fun _ => "on"⟩ [("light.a", stLightAOff)] [evRemoved] ()
          ⟨some "off", [SubKind.committedTracker, SubKind.committedStart]⟩).2).subs ↔
      SubKind.committedTracker ∈
        (⟨some "off", [SubKind.committedTracker, SubKind.committedStart]⟩ : EntityHost).subs) ∧
    (SubKind.committedStart ∈
        (dispose_preview (async_start_preview_run
          ⟨id, fun _ _ s => s, fun _ => "on"⟩ [("light.a", stLightAOff)] [evRemoved] ()
          ⟨some "off", [SubKind.committedTracker, SubKind.committedStart]⟩).2).subs ↔
      SubKind.committedStart ∈
        (⟨some "off", [SubKind.committedTracker, SubKind.committedStart]⟩ : EntityHost).subs) :=
  claim9_preview_never_touches_committed Unit
    ⟨id, fun _ _ s => s, fun _ => "on"⟩ [("light.a", stLightAOff)] [evRemoved] ()
    ⟨some "off", [SubKind.committedTracker, SubKind.committedStart]⟩

end HAGroup
